import Mathlib

/-!
Verification of the enum-resolution core of `src/vulkan/util/gen_enum_to_str.py`:
the classes `NamedFactory`, `VkExtension`, `VkEnum` (with `add_value` and
`add_value_from_xml`) and the document walk `parse_xml`.

Python dictionaries are embedded as association lists with an
update-in-place-or-append `insert`; Python exceptions (failed `assert`,
`KeyError`, `AttributeError`, `TypeError`) map to `Option.none` (a fatal
abort of the run).
-/

namespace GenEnumToStr

/-- Association-list lookup, mirroring Python `dict` indexing / `dict.get`. -/
def AList.lookup {α β : Type} [DecidableEq α] (m : List (α × β)) (k : α) : Option β :=
  match m with
  | [] => none
  | (k', v) :: rest => if k' = k then some v else AList.lookup rest k

/-- Association-list update: replace the entry for `k` in place when present,
append otherwise — mirroring Python `d[k] = v`. -/
def AList.insert {α β : Type} [DecidableEq α] (m : List (α × β)) (k : α) (v : β) :
    List (α × β) :=
  match m with
  | [] => [(k, v)]
  | (k', v') :: rest =>
      if k' = k then (k, v) :: rest else (k', v') :: AList.insert rest k v

/-- `VkExtension`: `number` is `Option` because the Python constructor defaults
it to `None`. -/
structure VkExtension where
  name : String
  number : Option Int
deriving DecidableEq, Repr

/-- `VkEnum`: `values` maps resolved integers to canonical names,
`name_to_value` maps every declared name to its resolved integer. -/
structure VkEnum where
  name : String
  values : List (Int × String)
  name_to_value : List (String × Int)
deriving DecidableEq, Repr

/-- The unconditional tail of `VkEnum.add_value` once the integer `value` is
known (source lines 174-178): set `name_to_value[name] = value`; record `name`
in `values[value]` when the integer is new or when `name` is strictly shorter
than the recorded name. -/
def VkEnum.record (e : VkEnum) (name : String) (value : Int) : VkEnum :=
  { e with
    name_to_value := AList.insert e.name_to_value name value
    values :=
      match AList.lookup e.values value with
      | none => AList.insert e.values value name
      | some existing =>
          if existing.length > name.length then AList.insert e.values value name
          else e.values }

/-- `VkEnum.add_value` (source lines 165-178).  `none` models a Python
exception: the failed `assert` when both `value` and `extnum` are `None`, and
the `TypeError` when the offset arithmetic is attempted with `offset = None`. -/
def VkEnum.add_value (e : VkEnum) (name : String)
    (value extnum offset : Option Int) (error : Bool) : Option VkEnum :=
  match value, extnum, offset with
  | some v, _, _ => some (e.record name v)
  | none, some en, some o =>
      let v := 1000000000 + (en - 1) * 1000 + o
      some (e.record name (if error then -v else v))
  | none, some _, none => none
  | none, none, _ => none

/-- One `<enum>` element, with the attributes `add_value_from_xml` reads.
`aliasName` models the `alias` attribute (`alias` is reserved in Lean). -/
structure Elem where
  name : String
  value : Option Int
  aliasName : Option String
  extnumber : Option Int
  offset : Option Int
  dir : Option String
deriving DecidableEq, Repr

/-- `VkEnum.add_value_from_xml` (source lines 180-196).  The `if/elif/else`
chain tries `value`, then `alias`, then the offset form.  `none` models the
fatal exceptions: `KeyError` on an unknown alias or a missing `offset`
attribute, `AttributeError` when the offset form has no `extnumber` attribute
and no enclosing extension. -/
def VkEnum.add_value_from_xml (e : VkEnum) (elem : Elem)
    (extension : Option VkExtension) : Option VkEnum :=
  match elem.value with
  | some v => e.add_value elem.name (some v) none none false
  | none =>
    match elem.aliasName with
    | some a =>
        match AList.lookup e.name_to_value a with
        | some v => e.add_value elem.name (some v) none none false
        | none => none
    | none =>
        let err := decide (elem.dir = some "-")
        match elem.extnumber with
        | some n =>
            match elem.offset with
            | some o => e.add_value elem.name none (some n) (some o) err
            | none => none
        | none =>
            match extension with
            | none => none
            | some ext =>
                match elem.offset with
                | some o => e.add_value elem.name none ext.number (some o) err
                | none => none

/-- `NamedFactory.__call__` (source lines 137-142): return the registered
object for `name` when present (constructor arguments ignored), else register
and return `fresh`, the object the constructor would build. -/
def NamedFactory.getOrCreate {α : Type} (reg : List (String × α)) (name : String)
    (fresh : α) : α × List (String × α) :=
  match AList.lookup reg name with
  | some o => (o, reg)
  | none => (fresh, AList.insert reg name fresh)

/-- An `<extension>` block of the `<extensions>` section: its `name`,
`number` and `supported` attributes and its `require/enum[@extends]`
children, each paired with the string of its `extends` attribute. -/
structure ExtBlock where
  name : String
  number : Int
  supported : String
  requireEnums : List (String × Elem)
deriving DecidableEq, Repr

/-- A registry document, restricted to the nodes `parse_xml` queries:
`enums[@type="enum"]` blocks (name and `enum` children),
`feature/require/enum[@extends]` declarations (extends-target and element),
and `extensions/extension` blocks. -/
structure Document where
  enumBlocks : List (String × List Elem)
  featureEnums : List (String × Elem)
  extBlocks : List ExtBlock
deriving DecidableEq, Repr

/-- The two factory registries threaded through the whole run. -/
structure State where
  enums : List (String × VkEnum)
  extensions : List (String × VkExtension)
deriving DecidableEq, Repr

/-- Pass 1 of `parse_xml` for one `enums[@type="enum"]` block (source lines
208-211): get-or-create the `VkEnum` and feed every child through
`add_value_from_xml` with no enclosing extension. -/
def processEnumBlock (st : State) (block : String × List Elem) : Option State :=
  let (en, reg) := NamedFactory.getOrCreate st.enums block.1
    (VkEnum.mk block.1 [] [])
  (block.2.foldlM (fun (e : VkEnum) elem => e.add_value_from_xml elem none) en).map
    fun en' => { st with enums := AList.insert reg block.1 en' }

/-- Pass 2 of `parse_xml` for one `feature/require/enum[@extends]` element
(source lines 213-216): non-creating lookup of the `extends` target; silently
skip the declaration when the target is not a registered enum. -/
def processFeatureEnum (st : State) (te : String × Elem) : Option State :=
  match AList.lookup st.enums te.1 with
  | none => some st
  | some en =>
      (en.add_value_from_xml te.2 none).map
        fun en' => { st with enums := AList.insert st.enums te.1 en' }

/-- One `require/enum[@extends]` element of an extension block (source lines
222-225): like pass 2, but with the enclosing extension supplied. -/
def processExtRequire (st : State) (ext : VkExtension) (te : String × Elem) :
    Option State :=
  match AList.lookup st.enums te.1 with
  | none => some st
  | some en =>
      (en.add_value_from_xml te.2 (some ext)).map
        fun en' => { st with enums := AList.insert st.enums te.1 en' }

/-- Pass 3 of `parse_xml` for one `extension[@supported="vulkan"]` block
(source lines 218-225): get-or-create the `VkExtension` (its `number` fixed by
the first occurrence), then process its extending declarations. -/
def processExtBlock (st : State) (b : ExtBlock) : Option State :=
  let (ext, ereg) := NamedFactory.getOrCreate st.extensions b.name
    (VkExtension.mk b.name (some b.number))
  b.requireEnums.foldlM (fun s te => processExtRequire s ext te)
    { st with extensions := ereg }

/-- `parse_xml` (source lines 199-225): the three fixed passes over one
document, in order; only `supported="vulkan"` extension blocks are visited. -/
def parse_xml (st : State) (doc : Document) : Option State := do
  let st1 ← doc.enumBlocks.foldlM processEnumBlock st
  let st2 ← doc.featureEnums.foldlM processFeatureEnum st1
  (doc.extBlocks.filter fun b => b.supported = "vulkan").foldlM
    processExtBlock st2

/-- The loop of `main` over the `--xml` arguments (source lines 242-243). -/
def runDocs (st : State) (docs : List Document) : Option State :=
  docs.foldlM parse_xml st

end GenEnumToStr

namespace GenEnumToStr

theorem lookup_insert_self {α β : Type} [DecidableEq α] (m : List (α × β))
    (k : α) (v : β) : AList.lookup (AList.insert m k v) k = some v := by
  induction m with
  | nil => simp [AList.insert, AList.lookup]
  | cons p rest ih =>
      obtain ⟨k', v'⟩ := p
      by_cases h : k' = k
      · simp [AList.insert, AList.lookup, h]
      · simp [AList.insert, AList.lookup, h, ih]

theorem lookup_insert_ne {α β : Type} [DecidableEq α] (m : List (α × β))
    (k k' : α) (v : β) (h : k' ≠ k) :
    AList.lookup (AList.insert m k v) k' = AList.lookup m k' := by
  induction m with
  | nil => simp [AList.insert, AList.lookup, Ne.symm h]
  | cons p rest ih =>
      obtain ⟨a, b⟩ := p
      by_cases ha : a = k
      · subst ha
        simp [AList.insert, AList.lookup, Ne.symm h]
      · simp only [AList.insert, if_neg ha, AList.lookup]
        by_cases hb : a = k'
        · simp [hb]
        · simp [hb, ih]

theorem mem_insert {α β : Type} [DecidableEq α] (m : List (α × β))
    (k : α) (v : β) : ∀ p ∈ AList.insert m k v, p = (k, v) ∨ p ∈ m := by
  induction m with
  | nil =>
      intro p hp
      simp only [AList.insert, List.mem_singleton] at hp
      exact Or.inl hp
  | cons q rest ih =>
      obtain ⟨a, b⟩ := q
      intro p hp
      simp only [AList.insert] at hp
      by_cases ha : a = k
      · rw [if_pos ha] at hp
        rcases List.mem_cons.mp hp with h1 | h1
        · exact Or.inl h1
        · exact Or.inr (List.mem_cons_of_mem _ h1)
      · rw [if_neg ha] at hp
        rcases List.mem_cons.mp hp with h1 | h1
        · exact Or.inr (h1 ▸ List.mem_cons_self _ _)
        · rcases ih p h1 with h2 | h2
          · exact Or.inl h2
          · exact Or.inr (List.mem_cons_of_mem _ h2)

theorem isSome_lookup_insert {α β : Type} [DecidableEq α] (m : List (α × β))
    (k n : α) (v : β) (h : (AList.lookup m n).isSome = true) :
    (AList.lookup (AList.insert m k v) n).isSome = true := by
  by_cases hn : n = k
  · subst hn; rw [lookup_insert_self]; rfl
  · rw [lookup_insert_ne m k n v hn]; exact h

/-- C1: for every offset-form value declaration with extension number `E`,
offset `O` and error flag `err`, the resolved integer recorded in
`name_to_value` equals `1000000000 + (E - 1) * 1000 + O`, negated exactly when
`err` is true. -/
theorem offset_form_value_exact (e : VkEnum) (name : String) (E O : Int)
    (err : Bool) :
    ∃ e', e.add_value name none (some E) (some O) err = some e' ∧
      AList.lookup e'.name_to_value name =
        some (if err then -(1000000000 + (E - 1) * 1000 + O)
              else 1000000000 + (E - 1) * 1000 + O) := by
  refine ⟨_, rfl, ?_⟩
  show AList.lookup (AList.insert e.name_to_value name _) name = _
  rw [lookup_insert_self]

theorem lookup_values_record (e : VkEnum) (name : String) (v : Int) :
    AList.lookup (e.record name v).values v =
      some (match AList.lookup e.values v with
            | none => name
            | some old => if name.length < old.length then name else old) := by
  unfold VkEnum.record
  cases h : AList.lookup e.values v with
  | none => simp [h, lookup_insert_self]
  | some old =>
      simp only [h]
      by_cases hl : old.length > name.length
      · rw [if_pos hl, lookup_insert_self, if_pos hl]
      · rw [if_neg hl, h, if_neg hl]

theorem lookup_ntv_record_self (e : VkEnum) (name : String) (v : Int) :
    AList.lookup (e.record name v).name_to_value name = some v := by
  unfold VkEnum.record
  exact lookup_insert_self _ _ _

theorem lookup_ntv_record_ne (e : VkEnum) (name other : String) (v : Int)
    (h : other ≠ name) :
    AList.lookup (e.record name v).name_to_value other =
      AList.lookup e.name_to_value other := by
  unfold VkEnum.record
  exact lookup_insert_ne _ _ _ _ h

/-- C2: one `add_value` call resolving to `v` makes `values[v]` the new name
when `v` was unrecorded, and replaces the recorded name exactly when the new
name is strictly shorter; hence for two distinct names of different lengths
declared for the same fresh integer, in either order, the canonical name is
the shorter one, and equal-length names keep the first-registered one. -/
theorem addValue_canonical_name_policy (e : VkEnum) (a b : String) (v : Int)
    (hfresh : AList.lookup e.values v = none) (hlen : a.length < b.length) :
    (∀ (e0 : VkEnum) (name : String),
        e0.add_value name (some v) none none false = some (e0.record name v)) ∧
    (∀ (e0 : VkEnum) (name : String),
        AList.lookup (e0.record name v).values v =
          some (match AList.lookup e0.values v with
                | none => name
                | some old => if name.length < old.length then name else old)) ∧
    AList.lookup ((e.record a v).record b v).values v = some a ∧
    AList.lookup ((e.record b v).record a v).values v = some a ∧
    (∀ c d : String, c.length = d.length →
        AList.lookup ((e.record c v).record d v).values v = some c) := by
  refine ⟨fun e0 name => rfl, fun e0 name => lookup_values_record e0 name v,
    ?_, ?_, ?_⟩
  · rw [lookup_values_record, lookup_values_record, hfresh]
    simp only
    rw [if_neg (by omega)]
  · rw [lookup_values_record, lookup_values_record, hfresh]
    simp only
    rw [if_pos hlen]
  · intro c d hcd
    rw [lookup_values_record, lookup_values_record, hfresh]
    simp only
    rw [if_neg (by omega)]

/-- Witness for C2 at concrete inputs: the two-declaration scenario with
`VK_FOO` and `VK_FOO_EXT` for the fresh integer 5. -/
theorem addValue_canonical_name_policy_witness :
    AList.lookup
      (((VkEnum.mk "VkResult" [] []).record "VK_FOO" 5).record
        "VK_FOO_EXT" 5).values 5 = some "VK_FOO" :=
  (addValue_canonical_name_policy (VkEnum.mk "VkResult" [] [])
    "VK_FOO" "VK_FOO_EXT" 5 rfl (by decide)).2.2.1

/-- C3: every `add_value` call resolving to `v` sets `name_to_value[name] = v`
unconditionally; a later re-declaration of the same name overwrites the
mapping, and after a literal declaration `name_to_value[name]` equals the
literal value. -/
theorem nameToValue_last_writer_wins (e : VkEnum) (name : String)
    (v v2 : Int) (err : Bool) :
    (∃ e', e.add_value name (some v) none none err = some e' ∧
        AList.lookup e'.name_to_value name = some v) ∧
    AList.lookup (e.record name v).name_to_value name = some v ∧
    AList.lookup ((e.record name v).record name v2).name_to_value name =
      some v2 :=
  ⟨⟨e.record name v, rfl, lookup_ntv_record_self e name v⟩,
    lookup_ntv_record_self e name v,
    lookup_ntv_record_self (e.record name v) name v2⟩

/-- C4: an alias declaration whose target is present in `name_to_value`
resolves to the target's value as it stands at that moment, and a later
re-declaration of the target with a different value leaves the resolved
alias entry unchanged. -/
theorem alias_resolves_to_current_value (e : VkEnum) (elem : Elem)
    (ext : Option VkExtension) (target : String) (v v2 : Int)
    (hval : elem.value = none) (halias : elem.aliasName = some target)
    (hlook : AList.lookup e.name_to_value target = some v)
    (hne : elem.name ≠ target) :
    ∃ e', e.add_value_from_xml elem ext = some e' ∧
      AList.lookup e'.name_to_value elem.name = some v ∧
      AList.lookup (e'.record target v2).name_to_value elem.name = some v := by
  refine ⟨e.record elem.name v, ?_, lookup_ntv_record_self e elem.name v, ?_⟩
  · simp [VkEnum.add_value_from_xml, VkEnum.add_value, hval, halias, hlook]
  · rw [lookup_ntv_record_ne _ _ _ _ hne, lookup_ntv_record_self]

/-- Witness for C4: alias `VK_A` to target `VK_B` (value 3), then re-declare
`VK_B` as 9; the alias entry still maps to 3. -/
theorem alias_resolves_to_current_value_witness :
    ∃ e', (VkEnum.mk "T" [] [("VK_B", 3)]).add_value_from_xml
        (Elem.mk "VK_A" none (some "VK_B") none none none) none = some e' ∧
      AList.lookup e'.name_to_value "VK_A" = some 3 ∧
      AList.lookup (e'.record "VK_B" 9).name_to_value "VK_A" = some 3 :=
  alias_resolves_to_current_value (VkEnum.mk "T" [] [("VK_B", 3)])
    (Elem.mk "VK_A" none (some "VK_B") none none none) none "VK_B" 3 9
    rfl rfl (by decide) (by decide)

/-- C5 counterexample: an element supplying two of the three forms (a literal
value and an alias to a declared name) does not fail — resolution proceeds, so
violating the "exactly one" constraint is not fatal. -/
theorem exactly_one_form_counterexample :
    ((VkEnum.mk "T" [] [("VK_B", 3)]).add_value_from_xml
      (Elem.mk "VK_A" (some 7) (some "VK_B") none none none) none).isSome
      = true := rfl

/-- C5 amended: at least one of literal value, alias, or offset must be
supplied — with none of the three, resolution fails fatally; when several are
supplied, resolution does not fail but uses the first applicable form in the
fixed precedence order literal value, then alias, then offset. -/
theorem resolver_form_selection (e : VkEnum) (elem : Elem)
    (ext : Option VkExtension) :
    (elem.value = none → elem.aliasName = none → elem.offset = none →
      e.add_value_from_xml elem ext = none) ∧
    (∀ v, elem.value = some v →
      e.add_value_from_xml elem ext = some (e.record elem.name v)) ∧
    (∀ a v, elem.value = none → elem.aliasName = some a →
      AList.lookup e.name_to_value a = some v →
      e.add_value_from_xml elem ext = some (e.record elem.name v)) := by
  refine ⟨?_, ?_, ?_⟩
  · intro hv ha ho
    cases hn : elem.extnumber with
    | none =>
        cases ext with
        | none => simp [VkEnum.add_value_from_xml, hv, ha, hn]
        | some x => simp [VkEnum.add_value_from_xml, hv, ha, hn, ho]
    | some n => simp [VkEnum.add_value_from_xml, hv, ha, hn, ho]
  · intro v hv
    simp [VkEnum.add_value_from_xml, VkEnum.add_value, hv]
  · intro a v hv ha hl
    simp [VkEnum.add_value_from_xml, VkEnum.add_value, hv, ha, hl]

/-- Witness for the amended C5: with both a literal (7) and a resolvable alias
supplied, the literal wins and resolution succeeds. -/
theorem resolver_form_selection_witness :
    (VkEnum.mk "T" [] [("VK_B", 3)]).add_value_from_xml
      (Elem.mk "VK_A" (some 7) (some "VK_B") none none none) none =
      some ((VkEnum.mk "T" [] [("VK_B", 3)]).record "VK_A" 7) :=
  (resolver_form_selection (VkEnum.mk "T" [] [("VK_B", 3)])
    (Elem.mk "VK_A" (some 7) (some "VK_B") none none none) none).2.1 7 rfl

/-- C6: an alias-form declaration whose target is absent from `name_to_value`
fails fatally; it succeeds exactly when the target was previously declared. -/
theorem alias_requires_prior_declaration (e : VkEnum) (elem : Elem)
    (ext : Option VkExtension) (target : String)
    (hval : elem.value = none) (halias : elem.aliasName = some target) :
    (AList.lookup e.name_to_value target = none →
      e.add_value_from_xml elem ext = none) ∧
    (∀ v, AList.lookup e.name_to_value target = some v →
      (e.add_value_from_xml elem ext).isSome = true) := by
  constructor
  · intro h
    simp [VkEnum.add_value_from_xml, hval, halias, h]
  · intro v h
    simp [VkEnum.add_value_from_xml, VkEnum.add_value, hval, halias, h]

/-- Witness for C6: aliasing the never-declared `VK_B` is fatal. -/
theorem alias_requires_prior_declaration_witness :
    (VkEnum.mk "T" [] []).add_value_from_xml
      (Elem.mk "VK_A" none (some "VK_B") none none none) none = none :=
  (alias_requires_prior_declaration (VkEnum.mk "T" [] [])
    (Elem.mk "VK_A" none (some "VK_B") none none none) none "VK_B"
    rfl rfl).1 rfl

/-- C7: a feature-level or extension-block declaration whose `extends` target
is not a registered EnumType is skipped silently: no error, and the state
(all enums' tables and the set of registered EnumTypes) is unchanged. -/
theorem unknown_extends_skipped (st : State) (t : String) (elem : Elem)
    (ext : VkExtension) (h : AList.lookup st.enums t = none) :
    processFeatureEnum st (t, elem) = some st ∧
    processExtRequire st ext (t, elem) = some st := by
  constructor
  · simp [processFeatureEnum, h]
  · simp [processExtRequire, h]

/-- Witness for C7: a declaration extending the unregistered `VkNope` leaves
the state untouched in both passes. -/
theorem unknown_extends_skipped_witness :
    processFeatureEnum
        (State.mk [("VkResult", VkEnum.mk "VkResult" [] [])] [])
        ("VkNope", Elem.mk "VK_A" (some 1) none none none none) =
      some (State.mk [("VkResult", VkEnum.mk "VkResult" [] [])] []) ∧
    processExtRequire
        (State.mk [("VkResult", VkEnum.mk "VkResult" [] [])] [])
        (VkExtension.mk "VK_KHR_x" (some 4))
        ("VkNope", Elem.mk "VK_A" (some 1) none none none none) =
      some (State.mk [("VkResult", VkEnum.mk "VkResult" [] [])] []) :=
  unknown_extends_skipped
    (State.mk [("VkResult", VkEnum.mk "VkResult" [] [])] []) "VkNope"
    (Elem.mk "VK_A" (some 1) none none none none)
    (VkExtension.mk "VK_KHR_x" (some 4)) (by decide)

/-- C8: a factory keeps at most one object per name: a second `getOrCreate`
with the same name returns the existing object with the registry unchanged and
its constructor arguments ignored; in particular an extension's `number` is
fixed by its first occurrence. -/
theorem factory_name_uniqueness :
    (∀ (α : Type) (reg : List (String × α)) (name : String) (o fresh : α),
        AList.lookup reg name = some o →
        NamedFactory.getOrCreate reg name fresh = (o, reg)) ∧
    (∀ (reg : List (String × VkExtension)) (name : String) (n1 n2 : Int),
        AList.lookup reg name = none →
        NamedFactory.getOrCreate
            (NamedFactory.getOrCreate reg name
              (VkExtension.mk name (some n1))).2
            name (VkExtension.mk name (some n2)) =
          ((NamedFactory.getOrCreate reg name
              (VkExtension.mk name (some n1))).1,
            (NamedFactory.getOrCreate reg name
              (VkExtension.mk name (some n1))).2) ∧
        (NamedFactory.getOrCreate reg name
            (VkExtension.mk name (some n1))).1.number = some n1) := by
  constructor
  · intro α reg name o fresh h
    unfold NamedFactory.getOrCreate
    rw [h]
  · intro reg name n1 n2 h
    unfold NamedFactory.getOrCreate
    rw [h]
    simp [lookup_insert_self]

/-- Witness for C8: registering `VK_KHR_swapchain` with number 5 and then
again with number 9 returns the first object, number still 5. -/
theorem factory_name_uniqueness_witness :
    NamedFactory.getOrCreate
        (NamedFactory.getOrCreate ([] : List (String × VkExtension))
          "VK_KHR_swapchain" (VkExtension.mk "VK_KHR_swapchain" (some 5))).2
        "VK_KHR_swapchain" (VkExtension.mk "VK_KHR_swapchain" (some 9)) =
      ((NamedFactory.getOrCreate ([] : List (String × VkExtension))
          "VK_KHR_swapchain" (VkExtension.mk "VK_KHR_swapchain" (some 5))).1,
        (NamedFactory.getOrCreate ([] : List (String × VkExtension))
          "VK_KHR_swapchain" (VkExtension.mk "VK_KHR_swapchain" (some 5))).2) ∧
    (NamedFactory.getOrCreate ([] : List (String × VkExtension))
        "VK_KHR_swapchain" (VkExtension.mk "VK_KHR_swapchain" (some 5))).1.number
      = some 5 :=
  factory_name_uniqueness.2 [] "VK_KHR_swapchain" 5 9 rfl

/-- C9: resolution is deterministic in the input order — running the document
walk twice on equal initial states and equal ordered document lists yields
equal final states. -/
theorem resolution_deterministic (st1 st2 : State)
    (docs1 docs2 : List Document) (hst : st1 = st2) (hdocs : docs1 = docs2) :
    runDocs st1 docs1 = runDocs st2 docs2 := by
  rw [hst, hdocs]

/-- Witness for C9: two runs over a one-document list agree. -/
theorem resolution_deterministic_witness :
    runDocs (State.mk [] [])
        [Document.mk
          [("VkResult", [Elem.mk "VK_SUCCESS" (some 0) none none none none])]
          [] []] =
      runDocs (State.mk [] [])
        [Document.mk
          [("VkResult", [Elem.mk "VK_SUCCESS" (some 0) none none none none])]
          [] []] :=
  resolution_deterministic _ _ _ _ rfl rfl

/-- The implicit invariant of C10, as an executable check: every canonical
name stored in `values` is a key of `name_to_value`. -/
def valuesNamesRegistered (e : VkEnum) : Bool :=
  e.values.all fun p => (AList.lookup e.name_to_value p.2).isSome

theorem valuesNamesRegistered_record (e : VkEnum) (name : String) (v : Int)
    (h : valuesNamesRegistered e = true) :
    valuesNamesRegistered (e.record name v) = true := by
  unfold valuesNamesRegistered at h ⊢
  rw [List.all_eq_true] at h ⊢
  intro p hp
  have hold : ∀ q ∈ e.values,
      (AList.lookup (e.record name v).name_to_value q.2).isSome = true := by
    intro q hq
    unfold VkEnum.record
    exact isSome_lookup_insert _ _ _ _ (h q hq)
  have hnew : (AList.lookup (e.record name v).name_to_value name).isSome
      = true := by
    rw [lookup_ntv_record_self]
    rfl
  have hvals : (e.record name v).values = AList.insert e.values v name ∨
      (e.record name v).values = e.values := by
    cases hl : AList.lookup e.values v with
    | none => exact Or.inl (by simp [VkEnum.record, hl])
    | some ex =>
        by_cases hlen : ex.length > name.length
        · exact Or.inl (by simp [VkEnum.record, hl, hlen])
        · exact Or.inr (by simp [VkEnum.record, hl, hlen])
  rcases hvals with hv | hv
  · rw [hv] at hp
    rcases mem_insert _ _ _ p hp with hpv | hpv
    · subst hpv
      exact hnew
    · exact hold p hpv
  · rw [hv] at hp
    exact hold p hp

/-- C10: every successful `add_value` call preserves the invariant that every
canonical name in `values` is a key of `name_to_value`. -/
theorem add_value_preserves_values_registered (e e' : VkEnum) (name : String)
    (value extnum offset : Option Int) (err : Bool)
    (hinv : valuesNamesRegistered e = true)
    (h : e.add_value name value extnum offset err = some e') :
    valuesNamesRegistered e' = true := by
  unfold VkEnum.add_value at h
  cases value with
  | some v =>
      simp only [Option.some.injEq] at h
      rw [← h]
      exact valuesNamesRegistered_record e name v hinv
  | none =>
      cases extnum with
      | none => cases offset <;> simp at h
      | some en =>
          cases offset with
          | none => simp at h
          | some o =>
              simp only [Option.some.injEq] at h
              rw [← h]
              exact valuesNamesRegistered_record e name _ hinv

/-- Witness for C10: the invariant holds after adding `VK_A = 0` to an empty
enum. -/
theorem add_value_preserves_values_registered_witness :
    valuesNamesRegistered ((VkEnum.mk "T" [] []).record "VK_A" 0) = true :=
  add_value_preserves_values_registered (VkEnum.mk "T" [] [])
    ((VkEnum.mk "T" [] []).record "VK_A" 0) "VK_A" (some 0) none none false
    rfl rfl

end GenEnumToStr
